import Mathlib

/-!
Verification of the synthetic e-commerce data pipeline
(`scripts/generate_data.py`, `scripts/ingest_data.py`, `scripts/query_data.py`).

Shallow embedding conventions:
* The global seeded PRNG of Python is modelled as an explicit stream of natural
  numbers (`List Nat`); each primitive draw consumes one stream element and
  maps it into the required range.  Every finite run of the Python program
  corresponds to some stream, and a fixed seed corresponds to a fixed stream.
* Monetary values are exact: catalog prices are stored in integer cents and
  every line total (price times a quantity of 1-3) is a whole number of
  cents, so the running subtotal is modelled in integer cents.  The Python
  code accumulates the subtotal in binary floats and formats it with
  2-decimal rounding; the accumulated float error over at most 4 line items
  is far below half a cent and an exact whole-cent value is never a rounding
  tie, so the persisted 2-decimal string denotes exactly this cents value
  (the rounding identity is proved at the rational level where stated).
* `datetime` values are modelled as hours since an epoch; `strftime("%Y-%m-%d")`
  keeps only the calendar day, modelled as the hour count divided by 24
  (the day-string rendering is injective in the day number).
* Python `random.choice` raises on an empty sequence; the model takes an
  explicit default that is never used at a nonempty sequence, and functions
  whose Python counterpart can raise mid-run return `Option`.
-/

/-- One element of the PRNG stream: head (0 when exhausted) and the tail.
Real runs consume finitely many values, so eventually-zero streams cover
every behaviour of the Python generator. -/
def next (s : List Nat) : Nat × List Nat := (s.headD 0, s.tail)

/-- `random.randint(a, b)`: inclusive uniform draw, modelled by mapping one
stream element into `[a, b]`. -/
def randint (a b : Nat) (s : List Nat) : Nat × List Nat :=
  let (n, s') := next s
  (a + n % (b - a + 1), s')

/-- `random.choice(xs)`: uniform element of `xs`.  Python raises `IndexError`
on an empty list; the model returns the default `d` there (all uses in the
development are at nonempty lists or guarded by an emptiness check). -/
def choice : (xs : List α) → (d : α) → (s : List Nat) → α × List Nat
  | [], d, s => (d, (next s).2)
  | x :: l, _, s =>
    let (n, s') := next s
    ((x :: l).get ⟨n % (l.length + 1), Nat.mod_lt _ (Nat.succ_pos _)⟩, s')

/-- `random.sample(xs, k)`: `k` distinct positions of `xs`, drawn without
replacement (each step picks a remaining element and erases it).  `none`
models the `ValueError` raised when `k` exceeds the population size. -/
def sample : (xs : List α) → (k : Nat) → (s : List Nat) → Option (List α) × List Nat
  | _, 0, s => (some [], s)
  | [], _ + 1, s => (none, s)
  | x :: l, k + 1, s =>
    let (n, s1) := next s
    let idx := n % (l.length + 1)
    let chosen := (x :: l).get ⟨idx, Nat.mod_lt _ (Nat.succ_pos _)⟩
    match sample ((x :: l).eraseIdx idx) k s1 with
    | (some rest, s2) => (some (chosen :: rest), s2)
    | (none, s2) => (none, s2)

/-! ### Fixed vocabularies (`generate_data.py`) -/

def CITIES : List String :=
  ["New York", "San Francisco", "Chicago", "Austin", "Seattle", "Boston"]

def FIRST_NAMES : List String :=
  ["Alex", "Jordan", "Taylor", "Riley", "Casey", "Morgan", "Jamie", "Avery",
   "Reese", "Skyler", "Parker", "Rowan", "Hayden", "Quinn", "Elliot"]

def LAST_NAMES : List String :=
  ["Smith", "Johnson", "Williams", "Brown", "Jones", "Garcia", "Miller",
   "Davis", "Lopez", "Gonzalez", "Wilson", "Anderson", "Thomas", "Jackson",
   "Martinez"]

/-- The product catalog: category name paired with (product name, price in
integer cents).  Python 3.7+ dict iteration follows declaration order, so a
list faithfully captures `PRODUCT_CATEGORIES`. -/
def PRODUCT_CATEGORIES : List (String × List (String × Nat)) :=
  [("Electronics",
    [("Wireless Earbuds", 7999), ("Smartphone Case", 1999),
     ("Bluetooth Speaker", 4999), ("Portable Charger", 3999),
     ("Smartwatch", 12999)]),
   ("Home",
    [("Ceramic Mug Set", 2499), ("Throw Blanket", 3499),
     ("LED Desk Lamp", 4550), ("Aromatherapy Diffuser", 2999),
     ("Indoor Plant Kit", 2749)]),
   ("Fitness",
    [("Yoga Mat", 3200), ("Resistance Bands", 2150),
     ("Insulated Water Bottle", 2500), ("Foam Roller", 2875),
     ("Adjustable Dumbbell", 19900)]),
   ("Books",
    [("Productivity Planner", 1895), ("Design Thinking Guide", 2200),
     ("Modern Cooking", 3000), ("Mindfulness Workbook", 1650),
     ("Startup Playbook", 2600)])]

def COMMENTS : List String :=
  ["Loved it! Highly recommend.",
   "Works as expected. Would buy again.",
   "Quality could be better, but good value overall.",
   "Fantastic customer service and fast shipping.",
   "Not satisfied with the durability.",
   "Exceeded my expectations!",
   "Makes daily life so much easier.",
   "Gifted it to a friend and they loved it.",
   "Helpful addition to my routine.",
   "Packaging was damaged, but product is fine."]

/-! ### Records -/

structure Customer where
  customer_id : Nat
  name : String
  email : String
  city : String
deriving DecidableEq

structure Product where
  product_id : Nat
  name : String
  category : String
  priceCents : Nat
deriving DecidableEq

structure Order where
  order_id : Nat
  customer_id : Nat
  /-- Day number of the persisted `YYYY-MM-DD` date. -/
  order_date : Nat
  /-- The persisted `f"{subtotal:.2f}"` total, as integer cents.  Every line
  total is a whole number of cents, so the rounded float subtotal is exactly
  this many cents. -/
  totalCents : Nat
deriving DecidableEq

structure OrderItem where
  order_item_id : Nat
  order_id : Nat
  product_id : Nat
  quantity : Nat
deriving DecidableEq

structure Review where
  review_id : Nat
  customer_id : Nat
  product_id : Nat
  rating : Nat
  comment : String
deriving DecidableEq

/-! ### `generate_customers` -/

/-- `str.lower()`, modelled per character over the character list of the string
(`String.toLower` itself is byte-position recursion that the kernel cannot
evaluate; on the ASCII name pools the two agree). -/
def strToLower (s : String) : String := String.mk (s.data.map Char.toLower)

/-- Loop body of `generate_customers`: `id` is the 1-based id of the next
customer, `n` the number still to produce.  Per iteration the code draws
first name, last name, city (in that order). -/
def genCustomers (id : Nat) : Nat → List Nat → List Customer × List Nat
  | 0, s => ([], s)
  | n + 1, s =>
    let (first, s1) := choice FIRST_NAMES "" s
    let (last, s2) := choice LAST_NAMES "" s1
    let (city, s3) := choice CITIES "" s2
    let c : Customer :=
      { customer_id := id
        name := first ++ " " ++ last
        email := strToLower first ++ "." ++ strToLower last ++ "@example.com"
        city := city }
    let (cs, s4) := genCustomers (id + 1) n s3
    (c :: cs, s4)

def generate_customers (count : Nat) (s : List Nat) : List Customer × List Nat :=
  genCustomers 1 count s

/-! ### `generate_products` -/

/-- Inner loop over the (name, price) entries of one category. -/
def genProductsItems (cat : String) (pid : Nat) : List (String × Nat) → List Product
  | [] => []
  | (n, price) :: t =>
    { product_id := pid, name := n, category := cat, priceCents := price }
      :: genProductsItems cat (pid + 1) t

/-- Outer loop over categories; the id counter advances by the number of
entries emitted for each category. -/
def genProductsCats (pid : Nat) : List (String × List (String × Nat)) → List Product
  | [] => []
  | (cat, items) :: t =>
    genProductsItems cat pid items ++ genProductsCats (pid + items.length) t

def generate_products : List Product :=
  genProductsCats 1 PRODUCT_CATEGORIES

/-! ### `generate_orders` -/

/-- `daterange(days_back=120)`: current time minus a random offset of 0-120
days and 0-23 hours.  `now` and the result are hours since the epoch. -/
def daterange (now : Nat) (s : List Nat) : Nat × List Nat :=
  let (d, s1) := randint 0 120 s
  let (h, s2) := randint 0 23 s1
  (now - (24 * d + h), s2)

/-- The `product_lookup` dict comprehension: maps a product id to its price;
a dict keeps the LAST binding when ids repeat.  Prices are in cents. -/
def lookupCents (ps : List Product) (pid : Nat) : Nat :=
  match ps.reverse.find? (fun p => p.product_id == pid) with
  | some p => p.priceCents
  | none => 0

/-- Rounding of the subtotal performed by `f"{subtotal:.2f}"`: the persisted
cents value of an exact rational amount of dollars. -/
def roundCents (x : ℚ) : Int := round (100 * x)

/-- The inner `for product in chosen_products` loop: draws a quantity in
`[1,3]` per product, accumulates line totals into the subtotal, and emits
one `OrderItem` per product under the running item-id counter.  Returns
(items, subtotal in cents, next item id, rest of stream).  The Python code
accumulates the subtotal in float dollars; each line total is an exact
whole number of cents, so the accumulation is modelled exactly in cents
(see the header comment on float error and rounding). -/
def genItems (ps : List Product) (oid : Nat) :
    (chosen : List Product) → (iid : Nat) → (s : List Nat) →
      List OrderItem × Nat × Nat × List Nat
  | [], iid, s => ([], 0, iid, s)
  | p :: rest, iid, s =>
    let (q, s1) := randint 1 3 s
    let lineTotal : Nat := lookupCents ps p.product_id * q
    let (items, sub, iid', s2) := genItems ps oid rest (iid + 1) s1
    ({ order_item_id := iid, order_id := oid
       product_id := p.product_id, quantity := q } :: items,
     lineTotal + sub, iid', s2)

/-- One iteration of the per-customer order loop: order date, item count in
`[1,4]`, a without-replacement sample of that many products, then the item
loop.  `none` models the `ValueError` of an oversized sample. -/
def genOrder (ps : List Product) (cid oid iid now : Nat) (s : List Nat) :
    Option Order × List OrderItem × Nat × List Nat :=
  let (dt, s1) := daterange now s
  let (ic, s2) := randint 1 4 s1
  match sample ps ic s2 with
  | (none, s3) => (none, [], iid, s3)
  | (some chosen, s3) =>
    let (items, sub, iid', s4) := genItems ps oid chosen iid s3
    (some { order_id := oid, customer_id := cid, order_date := dt / 24
            totalCents := sub },
     items, iid', s4)

/-- `k` orders for one customer, threading both id counters. -/
def genOrdersFor (ps : List Product) (cid : Nat) :
    (k : Nat) → (oid iid now : Nat) → (s : List Nat) →
      Option (List Order × List OrderItem × Nat × Nat × List Nat)
  | 0, oid, iid, _, s => some ([], [], oid, iid, s)
  | k + 1, oid, iid, now, s =>
    match genOrder ps cid oid iid now s with
    | (none, _, _, _) => none
    | (some o, items, iid', s') =>
      match genOrdersFor ps cid k (oid + 1) iid' now s' with
      | none => none
      | some (os, its, oid'', iid'', s'') =>
        some (o :: os, items ++ its, oid'', iid'', s'')

/-- The outer `for customer in customers` loop: each customer gets a count
of orders drawn from `[0,3]`. -/
def genOrdersAll (ps : List Product) :
    (customers : List Customer) → (oid iid now : Nat) → (s : List Nat) →
      Option (List Order × List OrderItem × Nat × Nat × List Nat)
  | [], oid, iid, _, s => some ([], [], oid, iid, s)
  | c :: cs, oid, iid, now, s =>
    let (k, s1) := randint 0 3 s
    match genOrdersFor ps c.customer_id k oid iid now s1 with
    | none => none
    | some (os, its, oid', iid', s2) =>
      match genOrdersAll ps cs oid' iid' now s2 with
      | none => none
      | some (os', its', oid'', iid'', s3) =>
        some (os ++ os', its ++ its', oid'', iid'', s3)

/-- `generate_orders(customers, products)`: both id counters start at 1. -/
def generate_orders (customers : List Customer) (ps : List Product)
    (now : Nat) (s : List Nat) :
    Option (List Order × List OrderItem × List Nat) :=
  (genOrdersAll ps customers 1 1 now s).map fun r => (r.1, r.2.1, r.2.2.2.2)

/-! ### `generate_reviews` -/

/-- The 28-attempt review loop.  `used` is the set of already accepted
(customer_id, product_id) pairs; a colliding attempt is skipped without
retry and without consuming the rating/comment draws.  `dc`/`dp` are the
never-used defaults for `choice` (the caller guarantees nonemptiness). -/
def genReviews (customers : List Customer) (ps : List Product)
    (dc : Customer) (dp : Product) :
    (n : Nat) → (rid : Nat) → (used : List (Nat × Nat)) → (s : List Nat) →
      List Review
  | 0, _, _, _ => []
  | n + 1, rid, used, s =>
    let (c, s1) := choice customers dc s
    let (p, s2) := choice ps dp s1
    if (c.customer_id, p.product_id) ∈ used then
      genReviews customers ps dc dp n rid used s2
    else
      let (rating, s3) := randint 1 5 s2
      let (comment, s4) := choice COMMENTS "" s3
      { review_id := rid, customer_id := c.customer_id
        product_id := p.product_id, rating := rating, comment := comment }
        :: genReviews customers ps dc dp n (rid + 1)
            ((c.customer_id, p.product_id) :: used) s4

/-- `generate_reviews(customers, products)`: `none` models the `IndexError`
that `random.choice` raises when either pool is empty. -/
def generate_reviews (customers : List Customer) (ps : List Product)
    (s : List Nat) : Option (List Review) :=
  match customers, ps with
  | c :: cs, p :: ps' => some (genReviews (c :: cs) (p :: ps') c p 28 1 [] s)
  | _, _ => none

/-- The five generated tables, in one record: one field per output file
(`customers.csv`, `products.csv`, `orders.csv`, `order_items.csv`,
`reviews.csv`).  The CSV rendering of each row is injective in the modelled
fields, so two runs produce byte-identical files exactly when their
`Dataset`s are equal. -/
structure Dataset where
  customers : List Customer
  products : List Product
  orders : List Order
  order_items : List OrderItem
  reviews : List Review
deriving DecidableEq

/-- `main()` of the generator: customers, the fixed catalog, orders, reviews,
in that order on one PRNG stream.  `now` is the generation time in hours. -/
def generateAll (now : Nat) (s : List Nat) : Option Dataset :=
  let (cs, s1) := generate_customers 24 s
  let ps := generate_products
  match generate_orders cs ps now s1 with
  | none => none
  | some (os, its, s2) =>
    match generate_reviews cs ps s2 with
    | none => none
    | some rs => some { customers := cs, products := ps, orders := os
                        order_items := its, reviews := rs }

/-! ### Derived per-order quantities -/

/-- Sum of `quantity * unit price` (in cents) over a list of order items,
with prices resolved through the same lookup the generator uses. -/
def itemsTotalCents (ps : List Product) (its : List OrderItem) : Nat :=
  (its.map (fun it => it.quantity * lookupCents ps it.product_id)).sum

/-- The order items belonging to the order with id `oid`. -/
def itemsFor (its : List OrderItem) (oid : Nat) : List OrderItem :=
  its.filter (fun it => it.order_id == oid)

/-! ### List helper lemmas -/

theorem map_eraseIdx_comm (f : α → β) :
    ∀ (l : List α) (i : Nat), (l.eraseIdx i).map f = (l.map f).eraseIdx i
  | [], _ => rfl
  | _ :: _, 0 => rfl
  | a :: l, i + 1 => by
    simp only [List.eraseIdx, List.map_cons, map_eraseIdx_comm f l i]

theorem get_not_mem_eraseIdx :
    ∀ (l : List α) (i : Nat) (h : i < l.length),
      l.Nodup → l.get ⟨i, h⟩ ∉ l.eraseIdx i
  | a :: l, 0, _, hn => by
    simpa [List.eraseIdx] using (List.nodup_cons.1 hn).1
  | a :: l, i + 1, h, hn => by
    simp only [List.eraseIdx, List.get_cons_succ, List.mem_cons, not_or]
    refine ⟨?_, get_not_mem_eraseIdx l i _ (List.nodup_cons.1 hn).2⟩
    intro hcontra
    exact (List.nodup_cons.1 hn).1 (hcontra ▸ l.get_mem _ _)

/-! ### `sample` lemmas -/

/-- A successful sample has the requested size, draws from the population,
and (whenever some projection of the population is duplicate-free) is
duplicate-free under that projection. -/
theorem sample_spec (f : α → β) :
    ∀ (k : Nat) (xs : List α) (s : List Nat) (l : List α) (s' : List Nat),
      sample xs k s = (some l, s') →
      l.length = k ∧ (∀ a ∈ l, a ∈ xs) ∧
        ((xs.map f).Nodup → (l.map f).Nodup)
  | 0, xs, s, l, s', h => by
    simp only [sample, Prod.mk.injEq, Option.some.injEq] at h
    simp [← h.1]
  | k + 1, [], s, l, s', h => by simp [sample] at h
  | k + 1, x :: t, s, l, s', h => by
    rw [sample] at h
    simp only [next] at h
    rcases hrec : sample ((x :: t).eraseIdx (s.headD 0 % (t.length + 1))) k
        s.tail with ⟨orest, s2⟩
    rw [hrec] at h
    rcases orest with _ | rest
    · simp at h
    · simp only [Prod.mk.injEq, Option.some.injEq] at h
      obtain ⟨hl, hs⟩ := h
      obtain ⟨hlen, hmem, hnd⟩ := sample_spec f k _ _ _ _ hrec
      subst hl
      refine ⟨by simp [hlen], ?_, ?_⟩
      · intro a ha
        rcases List.mem_cons.1 ha with rfl | ha
        · exact (x :: t).get_mem _ _
        · exact List.eraseIdx_subset _ _ (hmem a ha)
      · intro hnodup
        have hidx : s.headD 0 % (t.length + 1) < (x :: t).length :=
          Nat.mod_lt _ (Nat.succ_pos _)
        have herase : (((x :: t).eraseIdx (s.headD 0 % (t.length + 1))).map f).Nodup := by
          rw [map_eraseIdx_comm]
          exact (List.eraseIdx_sublist _ _).nodup hnodup
        refine List.nodup_cons.2 ⟨?_, hnd herase⟩
        intro hcontra
        rcases List.mem_map.1 hcontra with ⟨b, hb, hfb⟩
        have hbmem : f b ∈ (((x :: t).eraseIdx (s.headD 0 % (t.length + 1))).map f) :=
          List.mem_map_of_mem f (hmem b hb)
        rw [map_eraseIdx_comm] at hbmem
        have hidx' : s.headD 0 % (t.length + 1) < ((x :: t).map f).length := by
          rw [List.length_map]; exact hidx
        have hget : ((x :: t).map f).get ⟨s.headD 0 % (t.length + 1), hidx'⟩
            = f ((x :: t).get ⟨s.headD 0 % (t.length + 1), hidx⟩) := by
          simp only [List.get_eq_getElem, List.getElem_map]
        exact get_not_mem_eraseIdx ((x :: t).map f) _ hidx' hnodup
          (by rw [hget, ← hfb]; exact hbmem)

/-! ### `genItems` lemmas -/

/-- Structural facts about the item loop of one order: sequential item ids,
the order id stamped on every item, product ids copied from the chosen
sample, and the exact-dollar subtotal equal to the cents total over the
emitted items. -/
theorem genItems_spec (ps : List Product) (oid : Nat) :
    ∀ (chosen : List Product) (iid : Nat) (s : List Nat)
      (items : List OrderItem) (sub : Nat) (iid' : Nat) (s' : List Nat),
      genItems ps oid chosen iid s = (items, sub, iid', s') →
      items.map OrderItem.order_item_id = List.range' iid items.length ∧
      iid' = iid + items.length ∧
      (∀ it ∈ items, it.order_id = oid) ∧
      items.map OrderItem.product_id = chosen.map Product.product_id ∧
      sub = itemsTotalCents ps items
  | [], iid, s, items, sub, iid', s', h => by
    simp only [genItems, Prod.mk.injEq] at h
    obtain ⟨h1, h2, h3, h4⟩ := h
    subst h1; subst h2; subst h3
    simp [itemsTotalCents]
  | p :: rest, iid, s, items, sub, iid', s', h => by
    rw [genItems] at h
    rcases hq : randint 1 3 s with ⟨q, s1⟩
    simp only [hq] at h
    rcases hrec : genItems ps oid rest (iid + 1) s1 with ⟨items0, sub0, iid0, s0⟩
    simp only [hrec, Prod.mk.injEq] at h
    obtain ⟨h1, h2, h3, h4⟩ := h
    obtain ⟨ih1, ih2, ih3, ih4, ih5⟩ := genItems_spec ps oid rest (iid + 1) s1
      items0 sub0 iid0 s0 hrec
    subst h1; subst h2; subst h3
    refine ⟨?_, ?_, ?_, ?_, ?_⟩
    · simp only [List.map_cons, List.length_cons, ih1, List.range'_succ]
    · simp only [List.length_cons]; omega
    · intro it hit
      rcases List.mem_cons.1 hit with rfl | hit
      · rfl
      · exact ih3 it hit
    · simp only [List.map_cons, ih4]
    · simp only [itemsTotalCents, List.map_cons, List.sum_cons]
      rw [ih5]
      simp only [itemsTotalCents]
      ring

/-- Sampling never fails when the requested size is at most the population
size (the guard of Python `random.sample`). -/
theorem sample_isSome :
    ∀ (k : Nat) (xs : List α) (s : List Nat), k ≤ xs.length →
      (sample xs k s).1.isSome
  | 0, xs, s, _ => by simp [sample]
  | k + 1, [], s, h => by simp at h
  | k + 1, x :: t, s, h => by
    rw [sample]
    simp only [next]
    rcases hrec : sample ((x :: t).eraseIdx (s.headD 0 % (t.length + 1))) k
        s.tail with ⟨orest, s2⟩
    have hidx : s.headD 0 % (t.length + 1) < (x :: t).length :=
      Nat.mod_lt _ (Nat.succ_pos _)
    have hklen : k ≤ ((x :: t).eraseIdx (s.headD 0 % (t.length + 1))).length := by
      rw [List.length_eraseIdx_of_lt hidx]
      simpa using Nat.le_of_succ_le_succ h
    have hsome := sample_isSome k _ s.tail hklen
    rw [hrec] at hsome
    rcases orest with _ | rest
    · simp at hsome
    · simp

/-! ### The invariant of the order-generation loops -/

/-- Invariant carried through the nested order loops: starting from counter
values `oid`/`iid` and ending at `oid'`/`iid'`, the emitted orders and items
have densely sequential ids, the `order_id` of every item lies in the emitted
window, the persisted total of each order is the cents total of exactly its own
items, per-order product ids are duplicate-free (for a duplicate-free
catalog), and item product ids come from the catalog. -/
structure OrdersOk (ps : List Product) (oid iid : Nat) (os : List Order)
    (its : List OrderItem) (oid' iid' : Nat) : Prop where
  orderIds : os.map Order.order_id = List.range' oid os.length
  itemIds : its.map OrderItem.order_item_id = List.range' iid its.length
  oidEq : oid' = oid + os.length
  iidEq : iid' = iid + its.length
  itemOid : ∀ it ∈ its, oid ≤ it.order_id ∧ it.order_id < oid'
  totals : ∀ o ∈ os, o.totalCents = itemsTotalCents ps (itemsFor its o.order_id)
  pidsNodup : (ps.map Product.product_id).Nodup →
    ∀ o ∈ os, ((itemsFor its o.order_id).map OrderItem.product_id).Nodup
  itemPid : ∀ it ∈ its, it.product_id ∈ ps.map Product.product_id

theorem itemsFor_append (its1 its2 : List OrderItem) (oid : Nat) :
    itemsFor (its1 ++ its2) oid = itemsFor its1 oid ++ itemsFor its2 oid := by
  simp [itemsFor]

theorem itemsFor_eq_nil {its : List OrderItem} {oid : Nat}
    (h : ∀ it ∈ its, it.order_id ≠ oid) : itemsFor its oid = [] := by
  simp only [itemsFor, List.filter_eq_nil_iff]
  intro it hit
  simpa using h it hit

theorem order_id_bounds {os : List Order} {oid : Nat}
    (hmap : os.map Order.order_id = List.range' oid os.length)
    {o : Order} (ho : o ∈ os) : oid ≤ o.order_id ∧ o.order_id < oid + os.length := by
  have hmem : o.order_id ∈ List.range' oid os.length :=
    hmap ▸ List.mem_map_of_mem Order.order_id ho
  rcases List.mem_range'.1 hmem with ⟨i, hi, hEq⟩
  omega

theorem OrdersOk.nil (ps : List Product) (oid iid : Nat) :
    OrdersOk ps oid iid [] [] oid iid := by
  constructor <;> simp

theorem OrdersOk.append {ps : List Product} {oid iid mid midI oid' iid' : Nat}
    {os1 os2 : List Order} {its1 its2 : List OrderItem}
    (h1 : OrdersOk ps oid iid os1 its1 mid midI)
    (h2 : OrdersOk ps mid midI os2 its2 oid' iid') :
    OrdersOk ps oid iid (os1 ++ os2) (its1 ++ its2) oid' iid' := by
  obtain ⟨o1, i1, e1, f1, b1, t1, n1, p1⟩ := h1
  obtain ⟨o2, i2, e2, f2, b2, t2, n2, p2⟩ := h2
  have hfor1 : ∀ o ∈ os1, itemsFor (its1 ++ its2) o.order_id = itemsFor its1 o.order_id := by
    intro o ho
    have hb := order_id_bounds o1 ho
    have hnil : itemsFor its2 o.order_id = [] := by
      apply itemsFor_eq_nil
      intro it hit
      have := (b2 it hit).1
      omega
    rw [itemsFor_append, hnil, List.append_nil]
  have hfor2 : ∀ o ∈ os2, itemsFor (its1 ++ its2) o.order_id = itemsFor its2 o.order_id := by
    intro o ho
    have hb := order_id_bounds o2 ho
    have hnil : itemsFor its1 o.order_id = [] := by
      apply itemsFor_eq_nil
      intro it hit
      have := (b1 it hit).2
      omega
    rw [itemsFor_append, hnil, List.nil_append]
  constructor
  · rw [List.map_append, o1, o2, e1, List.length_append, List.range'_append_1,
      Nat.add_comm os2.length os1.length]
  · rw [List.map_append, i1, i2, f1, List.length_append, List.range'_append_1,
      Nat.add_comm its2.length its1.length]
  · rw [List.length_append]; omega
  · rw [List.length_append]; omega
  · intro it hit
    rcases List.mem_append.1 hit with hit | hit
    · have := b1 it hit
      have := List.length_append os1 os2
      omega
    · have := b2 it hit
      omega
  · intro o ho
    rcases List.mem_append.1 ho with ho | ho
    · rw [hfor1 o ho]; exact t1 o ho
    · rw [hfor2 o ho]; exact t2 o ho
  · intro hnd o ho
    rcases List.mem_append.1 ho with ho | ho
    · rw [hfor1 o ho]; exact n1 hnd o ho
    · rw [hfor2 o ho]; exact n2 hnd o ho
  · intro it hit
    rcases List.mem_append.1 hit with hit | hit
    · exact p1 it hit
    · exact p2 it hit

/-- One successful `genOrder` iteration establishes the invariant for a
singleton order window. -/
theorem genOrder_spec {ps : List Product} {cid oid iid now : Nat} {s : List Nat}
    {o : Order} {items : List OrderItem} {iid' : Nat} {s' : List Nat}
    (h : genOrder ps cid oid iid now s = (some o, items, iid', s')) :
    o.order_id = oid ∧ o.customer_id = cid ∧
      OrdersOk ps oid iid [o] items (oid + 1) iid' := by
  rw [genOrder] at h
  rcases hd : daterange now s with ⟨dt, s1⟩
  simp only [hd] at h
  rcases hic : randint 1 4 s1 with ⟨ic, s2⟩
  simp only [hic] at h
  rcases hsamp : sample ps ic s2 with ⟨ochosen, s3⟩
  rcases ochosen with _ | chosen
  · rw [hsamp] at h; simp at h
  · simp only [hsamp] at h
    rcases hgi : genItems ps oid chosen iid s3 with ⟨items0, sub, iid0, s0⟩
    simp only [hgi, Prod.mk.injEq, Option.some.injEq] at h
    obtain ⟨ho, hitems, hiid, hs⟩ := h
    obtain ⟨gi1, gi2, gi3, gi4, gi5⟩ :=
      genItems_spec ps oid chosen iid s3 items0 sub iid0 s0 hgi
    obtain ⟨slen, smem, snodup⟩ := sample_spec Product.product_id ic ps s2 chosen s3 hsamp
    subst hitems; subst hiid
    have hoid : o.order_id = oid := by rw [← ho]
    have hcid : o.customer_id = cid := by rw [← ho]
    have htot : o.totalCents = itemsTotalCents ps items0 := by
      rw [← ho]
      exact gi5
    have hitemsFor : itemsFor items0 o.order_id = items0 := by
      rw [hoid]
      exact List.filter_eq_self.2 fun it hit => by
        simp [gi3 it hit]
    refine ⟨hoid, hcid, ?_, ?_, ?_, ?_, ?_, ?_, ?_, ?_⟩
    · simp [hoid]
    · exact gi1
    · simp
    · simpa using gi2
    · intro it hit
      have := gi3 it hit
      omega
    · intro o' ho'
      rcases List.mem_singleton.1 ho' with rfl
      rw [hitemsFor]
      exact htot
    · intro hnd o' ho'
      rcases List.mem_singleton.1 ho' with rfl
      rw [hitemsFor, gi4]
      exact snodup hnd
    · intro it hit
      have hin : it.product_id ∈ items0.map OrderItem.product_id :=
        List.mem_map_of_mem OrderItem.product_id hit
      rw [gi4] at hin
      rcases List.mem_map.1 hin with ⟨p, hp, hpid⟩
      exact hpid ▸ List.mem_map_of_mem Product.product_id (smem p hp)

/-- The invariant over the `k` orders of one customer, all carrying that
id of that customer. -/
theorem genOrdersFor_spec {ps : List Product} {cid : Nat} :
    ∀ (k oid iid now : Nat) (s : List Nat)
      (os : List Order) (its : List OrderItem) (oid' iid' : Nat) (s' : List Nat),
      genOrdersFor ps cid k oid iid now s = some (os, its, oid', iid', s') →
      OrdersOk ps oid iid os its oid' iid' ∧ ∀ o ∈ os, o.customer_id = cid
  | 0, oid, iid, now, s, os, its, oid', iid', s', h => by
    simp only [genOrdersFor, Option.some.injEq, Prod.mk.injEq] at h
    obtain ⟨h1, h2, h3, h4, h5⟩ := h
    subst h1; subst h2; subst h3; subst h4
    exact ⟨OrdersOk.nil ps oid iid, by simp⟩
  | k + 1, oid, iid, now, s, os, its, oid', iid', s', h => by
    rw [genOrdersFor] at h
    rcases hord : genOrder ps cid oid iid now s with ⟨oo, items, iid0, s0⟩
    rcases oo with _ | o
    · simp [hord] at h
    · simp only [hord] at h
      rcases hrec : genOrdersFor ps cid k (oid + 1) iid0 now s0
        with _ | ⟨os2, its2, oid2, iid2, s2⟩
      · simp [hrec] at h
      · simp only [hrec, Option.some.injEq, Prod.mk.injEq] at h
        obtain ⟨h1, h2, h3, h4, h5⟩ := h
        subst h1; subst h2; subst h3; subst h4
        obtain ⟨hoid, hcid, hOk⟩ := genOrder_spec hord
        obtain ⟨hOk2, hcid2⟩ :=
          genOrdersFor_spec k (oid + 1) iid0 now s0 os2 its2 oid2 iid2 s2 hrec
        refine ⟨hOk.append hOk2, ?_⟩
        intro o' ho'
        rcases List.mem_cons.1 ho' with rfl | ho'
        · exact hcid
        · exact hcid2 o' ho'

/-- The invariant over the whole customer iteration; order customer ids come
from the iterated customers. -/
theorem genOrdersAll_spec {ps : List Product} :
    ∀ (cs : List Customer) (oid iid now : Nat) (s : List Nat)
      (os : List Order) (its : List OrderItem) (oid' iid' : Nat) (s' : List Nat),
      genOrdersAll ps cs oid iid now s = some (os, its, oid', iid', s') →
      OrdersOk ps oid iid os its oid' iid' ∧
        ∀ o ∈ os, o.customer_id ∈ cs.map Customer.customer_id
  | [], oid, iid, now, s, os, its, oid', iid', s', h => by
    simp only [genOrdersAll, Option.some.injEq, Prod.mk.injEq] at h
    obtain ⟨h1, h2, h3, h4, h5⟩ := h
    subst h1; subst h2; subst h3; subst h4
    exact ⟨OrdersOk.nil ps oid iid, by simp⟩
  | c :: cs, oid, iid, now, s, os, its, oid', iid', s', h => by
    rw [genOrdersAll] at h
    rcases hk : randint 0 3 s with ⟨k, s1⟩
    simp only [hk] at h
    rcases hfor : genOrdersFor ps c.customer_id k oid iid now s1
      with _ | ⟨os1, its1, oid1, iid1, s2⟩
    · simp [hfor] at h
    · simp only [hfor] at h
      rcases hall : genOrdersAll ps cs oid1 iid1 now s2
        with _ | ⟨os2, its2, oid2, iid2, s3⟩
      · simp [hall] at h
      · simp only [hall, Option.some.injEq, Prod.mk.injEq] at h
        obtain ⟨h1, h2, h3, h4, h5⟩ := h
        subst h1; subst h2; subst h3; subst h4
        obtain ⟨hOk1, hcid1⟩ :=
          genOrdersFor_spec k oid iid now s1 os1 its1 oid1 iid1 s2 hfor
        obtain ⟨hOk2, hcid2⟩ :=
          genOrdersAll_spec cs oid1 iid1 now s2 os2 its2 oid2 iid2 s3 hall
        refine ⟨hOk1.append hOk2, ?_⟩
        intro o' ho'
        rcases List.mem_append.1 ho' with ho' | ho'
        · simp [hcid1 o' ho']
        · simp only [List.map_cons, List.mem_cons]
          exact Or.inr (hcid2 o' ho')

/-- The invariant at the entry point `generate_orders` (both counters 1). -/
theorem generate_orders_spec {cs : List Customer} {ps : List Product} {now : Nat}
    {s : List Nat} {os : List Order} {its : List OrderItem} {s' : List Nat}
    (h : generate_orders cs ps now s = some (os, its, s')) :
    ∃ oid' iid', OrdersOk ps 1 1 os its oid' iid' ∧
      ∀ o ∈ os, o.customer_id ∈ cs.map Customer.customer_id := by
  rw [generate_orders] at h
  rcases hall : genOrdersAll ps cs 1 1 now s with _ | ⟨os0, its0, oid0, iid0, s0⟩
  · rw [hall] at h; simp at h
  · rw [hall] at h
    simp only [Option.map_some', Option.some.injEq, Prod.mk.injEq] at h
    obtain ⟨h1, h2, h3⟩ := h
    subst h1; subst h2
    obtain ⟨hOk, hcid⟩ := genOrdersAll_spec cs 1 1 now s os0 its0 oid0 iid0 s0 hall
    exact ⟨oid0, iid0, hOk, hcid⟩

/-! ### Order generation never hits the sampling failure branch -/

theorem genOrder_isSome {ps : List Product} (h4 : 4 ≤ ps.length)
    (cid oid iid now : Nat) (s : List Nat) :
    (genOrder ps cid oid iid now s).1.isSome := by
  rw [genOrder]
  rcases hd : daterange now s with ⟨dt, s1⟩
  simp only [hd]
  rcases hic : randint 1 4 s1 with ⟨ic, s2⟩
  simp only [hic]
  rw [randint] at hic
  simp only [next, Prod.mk.injEq] at hic
  have hic4 : ic ≤ 4 := by omega
  have hsome := sample_isSome ic ps s2 (le_trans hic4 h4)
  rcases hsamp : sample ps ic s2 with ⟨ochosen, s3⟩
  rw [hsamp] at hsome
  rcases ochosen with _ | chosen
  · simp at hsome
  · simp

theorem genOrdersFor_isSome {ps : List Product} (h4 : 4 ≤ ps.length) (cid : Nat) :
    ∀ (k oid iid now : Nat) (s : List Nat),
      (genOrdersFor ps cid k oid iid now s).isSome
  | 0, oid, iid, now, s => by simp [genOrdersFor]
  | k + 1, oid, iid, now, s => by
    rw [genOrdersFor]
    have hsome := genOrder_isSome h4 cid oid iid now s
    rcases hord : genOrder ps cid oid iid now s with ⟨oo, items, iid0, s0⟩
    rw [hord] at hsome
    rcases oo with _ | o
    · simp at hsome
    · have hrecsome := genOrdersFor_isSome h4 cid k (oid + 1) iid0 now s0
      rcases hrec : genOrdersFor ps cid k (oid + 1) iid0 now s0
        with _ | ⟨os2, its2, oid2, iid2, s2⟩
      · rw [hrec] at hrecsome; simp at hrecsome
      · simp [hrec]

theorem genOrdersAll_isSome {ps : List Product} (h4 : 4 ≤ ps.length) :
    ∀ (cs : List Customer) (oid iid now : Nat) (s : List Nat),
      (genOrdersAll ps cs oid iid now s).isSome
  | [], oid, iid, now, s => by simp [genOrdersAll]
  | c :: cs, oid, iid, now, s => by
    rw [genOrdersAll]
    rcases hk : randint 0 3 s with ⟨k, s1⟩
    simp only [hk]
    have hsome := genOrdersFor_isSome h4 c.customer_id k oid iid now s1
    rcases hfor : genOrdersFor ps c.customer_id k oid iid now s1
      with _ | ⟨os1, its1, oid1, iid1, s2⟩
    · rw [hfor] at hsome; simp at hsome
    · have hrecsome := genOrdersAll_isSome h4 cs oid1 iid1 now s2
      rcases hall : genOrdersAll ps cs oid1 iid1 now s2
        with _ | ⟨os2, its2, oid2, iid2, s3⟩
      · rw [hall] at hrecsome; simp at hrecsome
      · simp [hall]

/-! ### Review loop lemmas -/

theorem choice_mem {xs : List α} (hne : xs ≠ []) (d : α) (s : List Nat) :
    (choice xs d s).1 ∈ xs := by
  cases xs with
  | nil => exact absurd rfl hne
  | cons x l => exact List.get_mem _ _ _

/-- Invariant of the review-attempt loop: emitted (customer, product) pairs
are duplicate-free and avoid `used`, at most one review per attempt is
emitted, and reviewed entities come from the given pools. -/
theorem genReviews_spec (customers : List Customer) (ps : List Product)
    (dc : Customer) (dp : Product) :
    ∀ (n rid : Nat) (used : List (Nat × Nat)) (s : List Nat),
      ((genReviews customers ps dc dp n rid used s).map
          (fun r => (r.customer_id, r.product_id))).Nodup ∧
      (∀ r ∈ genReviews customers ps dc dp n rid used s,
          (r.customer_id, r.product_id) ∉ used) ∧
      (genReviews customers ps dc dp n rid used s).length ≤ n ∧
      (customers ≠ [] → ps ≠ [] →
        ∀ r ∈ genReviews customers ps dc dp n rid used s,
          r.customer_id ∈ customers.map Customer.customer_id ∧
          r.product_id ∈ ps.map Product.product_id)
  | 0, rid, used, s => by simp [genReviews]
  | n + 1, rid, used, s => by
    rw [genReviews]
    rcases hc : choice customers dc s with ⟨c, s1⟩
    simp only [hc]
    rcases hp : choice ps dp s1 with ⟨p, s2⟩
    simp only [hp]
    by_cases hkey : (c.customer_id, p.product_id) ∈ used
    · simp only [if_pos hkey]
      obtain ⟨ih1, ih2, ih3, ih4⟩ := genReviews_spec customers ps dc dp n rid used s2
      exact ⟨ih1, ih2, Nat.le_succ_of_le ih3, ih4⟩
    · simp only [if_neg hkey]
      rcases hr : randint 1 5 s2 with ⟨rating, s3⟩
      simp only [hr]
      rcases hcm : choice COMMENTS "" s3 with ⟨comment, s4⟩
      simp only [hcm]
      obtain ⟨ih1, ih2, ih3, ih4⟩ := genReviews_spec customers ps dc dp n (rid + 1)
        ((c.customer_id, p.product_id) :: used) s4
      refine ⟨?_, ?_, ?_, ?_⟩
      · refine List.nodup_cons.2 ⟨?_, ih1⟩
        intro hcontra
        rcases List.mem_map.1 hcontra with ⟨r, hr', hpair⟩
        exact (ih2 r hr') (hpair ▸ List.mem_cons_self _ _)
      · intro r hr'
        rcases List.mem_cons.1 hr' with rfl | hr'
        · exact hkey
        · exact fun hmem => (ih2 r hr') (List.mem_cons_of_mem _ hmem)
      · simpa using Nat.succ_le_succ ih3
      · intro hcne hpne r hr'
        rcases List.mem_cons.1 hr' with rfl | hr'
        · constructor
          · have : c ∈ customers := by
              have := choice_mem hcne dc s
              rw [hc] at this
              exact this
            exact List.mem_map_of_mem Customer.customer_id this
          · have : p ∈ ps := by
              have := choice_mem hpne dp s1
              rw [hp] at this
              exact this
            exact List.mem_map_of_mem Product.product_id this
        · exact ih4 hcne hpne r hr'

/-- Facts about `generate_reviews` output, independent of the input pools:
duplicate-free pairs, at most 28 reviews, and valid references. -/
theorem generate_reviews_spec {customers : List Customer} {ps : List Product}
    {s : List Nat} {rs : List Review}
    (h : generate_reviews customers ps s = some rs) :
    (rs.map fun r => (r.customer_id, r.product_id)).Nodup ∧ rs.length ≤ 28 ∧
      ∀ r ∈ rs, r.customer_id ∈ customers.map Customer.customer_id ∧
        r.product_id ∈ ps.map Product.product_id := by
  match customers, ps with
  | [], _ => simp [generate_reviews] at h
  | _ :: _, [] => simp [generate_reviews] at h
  | c :: cs', p :: ps' =>
    simp only [generate_reviews, Option.some.injEq] at h
    subst h
    obtain ⟨h1, h2, h3, h4⟩ :=
      genReviews_spec (c :: cs') (p :: ps') c p 28 1 [] s
    exact ⟨h1, h3, h4 (by simp) (by simp)⟩

/-! ### Customer ids -/

theorem genCustomers_ids : ∀ (id n : Nat) (s : List Nat),
    (genCustomers id n s).1.map Customer.customer_id = List.range' id n
  | id, 0, s => by simp [genCustomers]
  | id, n + 1, s => by
    rw [genCustomers]
    rcases h1 : choice FIRST_NAMES "" s with ⟨first, s1⟩
    simp only [h1]
    rcases h2 : choice LAST_NAMES "" s1 with ⟨last, s2⟩
    simp only [h2]
    rcases h3 : choice CITIES "" s2 with ⟨city, s3⟩
    simp only [h3]
    rcases h4 : genCustomers (id + 1) n s3 with ⟨cs, s4⟩
    simp only [h4]
    have ih := genCustomers_ids (id + 1) n s3
    rw [h4] at ih
    have hlen : cs.length = n := by
      have := congrArg List.length ih
      simpa using this
    simp only [List.map_cons, List.length_cons, ih, hlen, List.range'_succ]

/-! ### The exact rational subtotal and its rounding -/

/-- The exact sum of line totals of a list of order items, in dollars:
unit price (cents over 100) times quantity, summed.  This is the quantity
whose 2-decimal rounding the specification compares against the persisted
total. -/
def itemsSubtotalQ (ps : List Product) (its : List OrderItem) : ℚ :=
  (its.map (fun it => (lookupCents ps it.product_id : ℚ) / 100 * it.quantity)).sum

theorem itemsSubtotalQ_eq (ps : List Product) :
    ∀ its : List OrderItem, 100 * itemsSubtotalQ ps its = (itemsTotalCents ps its : ℚ)
  | [] => by simp [itemsSubtotalQ, itemsTotalCents]
  | it :: its => by
    have ih := itemsSubtotalQ_eq ps its
    show 100 * ((lookupCents ps it.product_id : ℚ) / 100 * it.quantity
        + itemsSubtotalQ ps its)
      = ((it.quantity * lookupCents ps it.product_id + itemsTotalCents ps its : ℕ) : ℚ)
    rw [mul_add, ih]
    push_cast
    field_simp
    ring

/-- Rounding the exact-dollar sum of line totals to 2 decimals yields the
cents total: a whole number of cents is never a rounding tie. -/
theorem roundCents_itemsSubtotalQ (ps : List Product) (its : List OrderItem) :
    roundCents (itemsSubtotalQ ps its) = (itemsTotalCents ps its : Int) := by
  rw [roundCents, itemsSubtotalQ_eq, round_natCast]

theorem mem_range'_of_bounds {m s n : Nat} (h1 : s ≤ m) (h2 : m < s + n) :
    m ∈ List.range' s n :=
  List.mem_range'.2 ⟨m - s, by omega, by omega⟩

/-! ### Claim theorems -/

/-- C1: for every generated order, the persisted `total_amount` (as integer
cents) equals the exact sum of its order items' line totals (quantity times
the unit price of the product in dollars), rounded to 2 decimal places. -/
theorem C1_total_amount_eq_rounded_sum {cs : List Customer} {ps : List Product}
    {now : Nat} {s : List Nat} {os : List Order} {its : List OrderItem}
    {s' : List Nat}
    (h : generate_orders cs ps now s = some (os, its, s')) :
    ∀ o ∈ os, (o.totalCents : Int)
      = roundCents (itemsSubtotalQ ps (itemsFor its o.order_id)) := by
  obtain ⟨oid', iid', hOk, -⟩ := generate_orders_spec h
  intro o ho
  rw [hOk.totals o ho, roundCents_itemsSubtotalQ]

theorem C1_total_amount_eq_rounded_sum_witness :
    generate_orders [⟨1, "A B", "a.b@example.com", "Austin"⟩] generate_products 240000
        [1, 0, 0, 0, 0, 0] = some ([⟨1, 1, 10000, 7999⟩], [⟨1, 1, 1, 1⟩], []) ∧
    ∀ o ∈ [(⟨1, 1, 10000, 7999⟩ : Order)], (o.totalCents : Int)
      = roundCents (itemsSubtotalQ generate_products
          (itemsFor [⟨1, 1, 1, 1⟩] o.order_id)) := by
  have h : generate_orders [⟨1, "A B", "a.b@example.com", "Austin"⟩] generate_products
      240000 [1, 0, 0, 0, 0, 0] = some ([⟨1, 1, 10000, 7999⟩], [⟨1, 1, 1, 1⟩], []) := by
    decide
  exact ⟨h, C1_total_amount_eq_rounded_sum h⟩

/-- C2 (amended): the generator is a deterministic function of the PRNG
stream (seed) and the generation timestamp: two runs with the same seed and
the same generation time produce identical datasets.  (As originally
stated — same seed alone — the claim fails: order dates depend on
`datetime.now()`, see the counterexample.) -/
theorem C2_same_seed_same_time_determinism (s1 s2 : List Nat) (n1 n2 : Nat)
    (hs : s1 = s2) (hn : n1 = n2) : generateAll n1 s1 = generateAll n2 s2 := by
  rw [hs, hn]

theorem C2_same_seed_same_time_determinism_witness :
    ([0] : List Nat) = [0] ∧ (5 : Nat) = 5 ∧ generateAll 5 [0] = generateAll 5 [0] :=
  ⟨rfl, rfl, C2_same_seed_same_time_determinism [0] [0] 5 5 rfl rfl⟩

/-- C2 counterexample: two runs with the identical PRNG stream (identical
seed) but different generation times produce different datasets — the order
date of the single generated order differs by one day, so the `orders.csv`
files are not byte-identical. -/
theorem C2_same_seed_cex :
    generateAll 2400000 (List.replicate 72 0 ++ [1])
      ≠ generateAll 2400024 (List.replicate 72 0 ++ [1]) := by decide

/-- C4: referential integrity of every generated foreign key: orders point
at iterated customers, order items at emitted orders and catalog products,
reviews at given customers and products. -/
theorem C4_referential_integrity {cs : List Customer} {ps : List Product}
    {now : Nat} {s s2 : List Nat} {os : List Order} {its : List OrderItem}
    {s' : List Nat} {rs : List Review}
    (h : generate_orders cs ps now s = some (os, its, s'))
    (hr : generate_reviews cs ps s2 = some rs) :
    (∀ o ∈ os, o.customer_id ∈ cs.map Customer.customer_id) ∧
    (∀ it ∈ its, it.order_id ∈ os.map Order.order_id ∧
        it.product_id ∈ ps.map Product.product_id) ∧
    (∀ r ∈ rs, r.customer_id ∈ cs.map Customer.customer_id ∧
        r.product_id ∈ ps.map Product.product_id) := by
  obtain ⟨oid', iid', hOk, hcid⟩ := generate_orders_spec h
  obtain ⟨-, -, hrs⟩ := generate_reviews_spec hr
  refine ⟨hcid, ?_, hrs⟩
  intro it hit
  refine ⟨?_, hOk.itemPid it hit⟩
  have hb := hOk.itemOid it hit
  have hoid := hOk.oidEq
  rw [hOk.orderIds]
  exact mem_range'_of_bounds hb.1 (by omega)

theorem C4_referential_integrity_witness :
    generate_orders [⟨1, "A B", "a.b@example.com", "Austin"⟩] generate_products 240000
        [1, 0, 0, 0, 0, 0] = some ([⟨1, 1, 10000, 7999⟩], [⟨1, 1, 1, 1⟩], []) ∧
    generate_reviews [⟨1, "A B", "a.b@example.com", "Austin"⟩] generate_products []
        = some [⟨1, 1, 1, 1, "Loved it! Highly recommend."⟩] ∧
    ((∀ o ∈ [(⟨1, 1, 10000, 7999⟩ : Order)], o.customer_id
        ∈ [(⟨1, "A B", "a.b@example.com", "Austin"⟩ : Customer)].map Customer.customer_id) ∧
      (∀ it ∈ [(⟨1, 1, 1, 1⟩ : OrderItem)],
        it.order_id ∈ [(⟨1, 1, 10000, 7999⟩ : Order)].map Order.order_id ∧
        it.product_id ∈ generate_products.map Product.product_id) ∧
      (∀ r ∈ [(⟨1, 1, 1, 1, "Loved it! Highly recommend."⟩ : Review)], r.customer_id
          ∈ [(⟨1, "A B", "a.b@example.com", "Austin"⟩ : Customer)].map Customer.customer_id ∧
        r.product_id ∈ generate_products.map Product.product_id)) := by
  have h : generate_orders [⟨1, "A B", "a.b@example.com", "Austin"⟩] generate_products
      240000 [1, 0, 0, 0, 0, 0] = some ([⟨1, 1, 10000, 7999⟩], [⟨1, 1, 1, 1⟩], []) := by
    decide
  have hr : generate_reviews [⟨1, "A B", "a.b@example.com", "Austin"⟩] generate_products []
      = some [⟨1, 1, 1, 1, "Loved it! Highly recommend."⟩] := by decide
  exact ⟨h, hr, C4_referential_integrity h hr⟩

/-- C5: across all generated reviews, the (customer_id, product_id) pairs
contain no duplicates, and at most 28 reviews are produced. -/
theorem C5_reviews_dedup_and_bound {cs : List Customer} {ps : List Product}
    {s : List Nat} {rs : List Review}
    (h : generate_reviews cs ps s = some rs) :
    (rs.map fun r => (r.customer_id, r.product_id)).Nodup ∧ rs.length ≤ 28 := by
  obtain ⟨h1, h2, -⟩ := generate_reviews_spec h
  exact ⟨h1, h2⟩

theorem C5_reviews_dedup_and_bound_witness :
    generate_reviews [⟨1, "A B", "a.b@example.com", "Austin"⟩] generate_products []
        = some [⟨1, 1, 1, 1, "Loved it! Highly recommend."⟩] ∧
    (([(⟨1, 1, 1, 1, "Loved it! Highly recommend."⟩ : Review)].map
        fun r => (r.customer_id, r.product_id)).Nodup ∧
      [(⟨1, 1, 1, 1, "Loved it! Highly recommend."⟩ : Review)].length ≤ 28) := by
  have hr : generate_reviews [⟨1, "A B", "a.b@example.com", "Austin"⟩] generate_products []
      = some [⟨1, 1, 1, 1, "Loved it! Highly recommend."⟩] := by decide
  exact ⟨hr, C5_reviews_dedup_and_bound hr⟩

/-- C6: within every generated order (over the fixed 20-product catalog),
the product ids of its order items contain no duplicates. -/
theorem C6_no_repeated_product_within_order {cs : List Customer} {now : Nat}
    {s : List Nat} {os : List Order} {its : List OrderItem} {s' : List Nat}
    (h : generate_orders cs generate_products now s = some (os, its, s')) :
    ∀ o ∈ os, ((itemsFor its o.order_id).map OrderItem.product_id).Nodup := by
  obtain ⟨oid', iid', hOk, -⟩ := generate_orders_spec h
  exact hOk.pidsNodup (by decide)

theorem C6_no_repeated_product_within_order_witness :
    generate_orders [⟨1, "A B", "a.b@example.com", "Austin"⟩] generate_products 240000
        [1, 0, 0, 0, 0, 0] = some ([⟨1, 1, 10000, 7999⟩], [⟨1, 1, 1, 1⟩], []) ∧
    ∀ o ∈ [(⟨1, 1, 10000, 7999⟩ : Order)],
      ((itemsFor [⟨1, 1, 1, 1⟩] o.order_id).map OrderItem.product_id).Nodup := by
  have h : generate_orders [⟨1, "A B", "a.b@example.com", "Austin"⟩] generate_products
      240000 [1, 0, 0, 0, 0, 0] = some ([⟨1, 1, 10000, 7999⟩], [⟨1, 1, 1, 1⟩], []) := by
    decide
  exact ⟨h, C6_no_repeated_product_within_order h⟩

/-- C7: customer ids of a run with count `N` are exactly `1..N`; product ids
are exactly `1..20`, assigned sequentially across categories in
catalog-declaration order, one product per (name, price) catalog entry. -/
theorem C7_dense_sequential_ids (count : Nat) (s : List Nat) :
    (generate_customers count s).1.map Customer.customer_id = List.range' 1 count ∧
    generate_products.map Product.product_id = List.range' 1 20 ∧
    generate_products.map (fun p => (p.name, p.category, p.priceCents))
      = (PRODUCT_CATEGORIES.map (fun ci => ci.2.map (fun np => (np.1, ci.1, np.2)))).flatten :=
  ⟨genCustomers_ids 1 count s, by decide, by decide⟩

/-- C8: order ids and order-item ids are monotonically increasing counters
starting at 1 across the whole customer iteration: the k-th emitted order
(item) has id k, so id order is generation order. -/
theorem C8_ids_reflect_generation_order {cs : List Customer} {ps : List Product}
    {now : Nat} {s : List Nat} {os : List Order} {its : List OrderItem}
    {s' : List Nat}
    (h : generate_orders cs ps now s = some (os, its, s')) :
    os.map Order.order_id = List.range' 1 os.length ∧
    its.map OrderItem.order_item_id = List.range' 1 its.length := by
  obtain ⟨oid', iid', hOk, -⟩ := generate_orders_spec h
  exact ⟨hOk.orderIds, hOk.itemIds⟩

theorem C8_ids_reflect_generation_order_witness :
    generate_orders [⟨1, "A B", "a.b@example.com", "Austin"⟩] generate_products 240000
        [1, 0, 0, 0, 0, 0] = some ([⟨1, 1, 10000, 7999⟩], [⟨1, 1, 1, 1⟩], []) ∧
    ([(⟨1, 1, 10000, 7999⟩ : Order)].map Order.order_id
        = List.range' 1 [(⟨1, 1, 10000, 7999⟩ : Order)].length ∧
      [(⟨1, 1, 1, 1⟩ : OrderItem)].map OrderItem.order_item_id
        = List.range' 1 [(⟨1, 1, 1, 1⟩ : OrderItem)].length) := by
  have h : generate_orders [⟨1, "A B", "a.b@example.com", "Austin"⟩] generate_products
      240000 [1, 0, 0, 0, 0, 0] = some ([⟨1, 1, 10000, 7999⟩], [⟨1, 1, 1, 1⟩], []) := by
    decide
  exact ⟨h, C8_ids_reflect_generation_order h⟩

/-- C9: over the fixed 20-product catalog, order generation never fails:
the drawn item count (1-4) never exceeds the catalog size, so the
without-replacement sampling failure branch is unreachable. -/
theorem C9_sampling_failure_unreachable (cs : List Customer) (now : Nat)
    (s : List Nat) :
    (generate_orders cs generate_products now s).isSome := by
  rw [generate_orders]
  have h4 : 4 ≤ generate_products.length := by decide
  have hall := genOrdersAll_isSome h4 cs 1 1 now s
  rcases h : genOrdersAll generate_products cs 1 1 now s with _ | r
  · rw [h] at hall; simp at hall
  · simp

/-! ### Ingestion of the customers file (`ingest_data.py`) -/

/-- Helper for `str(n)`: most-significant-first decimal digit characters of
`n`, with `fuel` bounding the recursion depth (any `fuel ≥ n` is exact). -/
def natStrAux : Nat → Nat → List Char
  | 0, _ => []
  | _ + 1, 0 => []
  | fuel + 1, n + 1 =>
    natStrAux fuel ((n + 1) / 10) ++ [Char.ofNat (48 + (n + 1) % 10)]

/-- Python `str(n)` for a natural number. -/
def natStr (n : Nat) : String :=
  if n = 0 then "0" else String.mk (natStrAux n n)

/-- Python `int(s)` on a decimal digit string. -/
def natParse (s : String) : Nat :=
  s.data.foldl (fun acc c => 10 * acc + (c.toNat - 48)) 0

/-- One data row of `customers.csv` as written by `csv.DictWriter` with
field order customer_id,name,email,city.  None of the generated field
values contains a delimiter, quote or newline, so modelling a row as its
list of field texts is exact. -/
def customerCSVRow (c : Customer) : List String :=
  [natStr c.customer_id, c.name, c.email, c.city]

def CUSTOMER_FIELDNAMES : List String := ["customer_id", "name", "email", "city"]

/-- `write_csv` for the customers table: the header row, then one row per
customer in order. -/
def write_csv_customers (cs : List Customer) : List (List String) :=
  CUSTOMER_FIELDNAMES :: cs.map customerCSVRow

/-- `load_csv_rows`: `csv.DictReader` skips the header row and yields the
field texts of every data row. -/
def load_csv_rows (file : List (List String)) : List (List String) :=
  file.drop 1

/-- A row of the `customers` table: `customer_id INTEGER PRIMARY KEY`,
`name`/`email`/`city` TEXT, with `email` UNIQUE. -/
structure CustomerRow where
  customer_id : Nat
  name : String
  email : String
  city : String
deriving DecidableEq

/-- `cast_row("customers", row)`: the id is cast with `int(...)`, the TEXT
columns are kept as strings. -/
def cast_row_customers (fields : List String) : CustomerRow :=
  { customer_id := natParse (fields.getD 0 "")
    name := fields.getD 1 ""
    email := fields.getD 2 ""
    city := fields.getD 3 "" }

/-- SQLite `INSERT OR REPLACE INTO customers`: any existing row conflicting
with the new row on a uniqueness constraint — the `customer_id` primary key
or the UNIQUE `email` column — is deleted, then the new row is inserted. -/
def insertOrReplaceCustomer (t : List CustomerRow) (r : CustomerRow) : List CustomerRow :=
  (t.filter fun r' => r'.customer_id != r.customer_id && r'.email != r.email) ++ [r]

/-- `insert_rows(conn, "customers", rows)` into the freshly created empty
table (`main()` deletes the database file before ingesting). -/
def ingest_customers (file : List (List String)) : List CustomerRow :=
  ((load_csv_rows file).map cast_row_customers).foldl insertOrReplaceCustomer []

/-- The table row a generated customer should map to (the identity on every
field, with the id read back as a number). -/
def customerToRow (c : Customer) : CustomerRow :=
  { customer_id := c.customer_id, name := c.name, email := c.email, city := c.city }

/-! ### Ingestion lemmas -/

theorem natParse_append (l1 l2 : List Char) (acc : Nat) :
    List.foldl (fun acc c => 10 * acc + (c.toNat - 48)) acc (l1 ++ l2)
      = List.foldl (fun acc c => 10 * acc + (c.toNat - 48))
          (List.foldl (fun acc c => 10 * acc + (c.toNat - 48)) acc l1) l2 := by
  rw [List.foldl_append]

theorem digitChar_toNat {d : Nat} (hd : d < 10) : (Char.ofNat (48 + d)).toNat = 48 + d := by
  interval_cases d <;> decide

theorem natStrAux_foldl :
    ∀ (fuel n acc : Nat), n ≤ fuel →
      List.foldl (fun acc c => 10 * acc + (c.toNat - 48)) acc (natStrAux fuel n)
        = acc * 10 ^ (natStrAux fuel n).length + n
  | 0, n, acc, h => by
    have : n = 0 := Nat.le_zero.1 h
    subst this
    simp [natStrAux]
  | fuel + 1, 0, acc, _ => by simp [natStrAux]
  | fuel + 1, n + 1, acc, h => by
    rw [natStrAux, natParse_append]
    have hdiv : (n + 1) / 10 ≤ fuel := by omega
    rw [natStrAux_foldl fuel ((n + 1) / 10) acc hdiv]
    have hmod : (n + 1) % 10 < 10 := Nat.mod_lt _ (by norm_num)
    simp only [List.foldl_cons, List.foldl_nil, digitChar_toNat hmod,
      List.length_append, List.length_cons, List.length_nil]
    have : 48 + (n + 1) % 10 - 48 = (n + 1) % 10 := by omega
    rw [this, pow_succ]
    have hdm : (n + 1) / 10 * 10 + (n + 1) % 10 = n + 1 := by omega
    ring_nf
    omega

/-- `int(str(n)) = n`. -/
theorem natParse_natStr (n : Nat) : natParse (natStr n) = n := by
  by_cases h0 : n = 0
  · subst h0; decide
  · rw [natStr, if_neg h0]
    show List.foldl (fun acc c => 10 * acc + (c.toNat - 48)) 0 (natStrAux n n) = n
    rw [natStrAux_foldl n n 0 (le_refl n)]
    simp

/-- Casting the written row of a customer recovers its fields exactly
(numeric string to number on the id, identity on the TEXT fields). -/
theorem cast_row_customerCSVRow (c : Customer) :
    cast_row_customers (customerCSVRow c) = customerToRow c := by
  simp [cast_row_customers, customerCSVRow, customerToRow, natParse_natStr]

/-- Folding `INSERT OR REPLACE` over rows none of which conflicts with the
table or among themselves appends them all. -/
theorem foldl_insertOrReplace_no_conflict :
    ∀ (rows t : List CustomerRow),
      (∀ r ∈ rows, ∀ r' ∈ t, r'.customer_id ≠ r.customer_id ∧ r'.email ≠ r.email) →
      (rows.map CustomerRow.customer_id).Nodup →
      (rows.map CustomerRow.email).Nodup →
      rows.foldl insertOrReplaceCustomer t = t ++ rows
  | [], t, _, _, _ => by simp
  | r :: rows, t, hconf, hid, hemail => by
    rw [List.foldl_cons]
    have hkeep : insertOrReplaceCustomer t r = t ++ [r] := by
      rw [insertOrReplaceCustomer]
      have : t.filter (fun r' => r'.customer_id != r.customer_id && r'.email != r.email) = t := by
        apply List.filter_eq_self.2
        intro r' hr'
        have := hconf r (List.mem_cons_self _ _) r' hr'
        simp only [Bool.and_eq_true, bne_iff_ne]
        exact ⟨this.1, this.2⟩
      rw [this]
    rw [hkeep]
    have hconf' : ∀ a ∈ rows, ∀ r' ∈ t ++ [r],
        r'.customer_id ≠ a.customer_id ∧ r'.email ≠ a.email := by
      intro a ha r' hr'
      rcases List.mem_append.1 hr' with hr' | hr'
      · exact hconf a (List.mem_cons_of_mem _ ha) r' hr'
      · have hrr : r' = r := List.mem_singleton.1 hr'
        constructor
        · intro hEq
          have hmem : a.customer_id ∈ rows.map CustomerRow.customer_id :=
            List.mem_map_of_mem CustomerRow.customer_id ha
          rw [← hEq, hrr] at hmem
          exact (List.nodup_cons.1 hid).1 hmem
        · intro hEq
          have hmem : a.email ∈ rows.map CustomerRow.email :=
            List.mem_map_of_mem CustomerRow.email ha
          rw [← hEq, hrr] at hmem
          exact (List.nodup_cons.1 hemail).1 hmem
    rw [foldl_insertOrReplace_no_conflict rows (t ++ [r]) hconf'
      (List.nodup_cons.1 hid).2 (List.nodup_cons.1 hemail).2]
    simp

/-- C3 (amended): writing a generated customer list of length N to the flat
file format and reloading it through ingestion yields exactly N rows in the
customers table with field values identical to the generated ones (the id
cast from its numeric string back to a number) — provided the generated
emails are pairwise distinct.  When two customers share a full name (hence
an email), `INSERT OR REPLACE` deletes the earlier row at the UNIQUE email
conflict and fewer than N rows remain (see the counterexample). -/
theorem C3_roundtrip_customers (count : Nat) (s : List Nat)
    (hemail : ((generate_customers count s).1.map Customer.email).Nodup) :
    ingest_customers (write_csv_customers (generate_customers count s).1)
      = (generate_customers count s).1.map customerToRow ∧
    (ingest_customers (write_csv_customers (generate_customers count s).1)).length
      = count := by
  have hids : (generate_customers count s).1.map Customer.customer_id
      = List.range' 1 count := genCustomers_ids 1 count s
  have hlen : (generate_customers count s).1.length = count := by
    have := congrArg List.length hids
    simpa using this
  have hcompid : CustomerRow.customer_id ∘ customerToRow = Customer.customer_id := rfl
  have hcompem : CustomerRow.email ∘ customerToRow = Customer.email := rfl
  have hidn : (((generate_customers count s).1.map customerToRow).map
      CustomerRow.customer_id).Nodup := by
    rw [List.map_map, hcompid, hids]
    exact List.nodup_range' 1 count
  have hemn : (((generate_customers count s).1.map customerToRow).map
      CustomerRow.email).Nodup := by
    rw [List.map_map, hcompem]
    exact hemail
  have hmain : ingest_customers (write_csv_customers (generate_customers count s).1)
      = (generate_customers count s).1.map customerToRow := by
    rw [ingest_customers, write_csv_customers, load_csv_rows]
    have hdrop : ((CUSTOMER_FIELDNAMES
        :: (generate_customers count s).1.map customerCSVRow).drop 1)
        = (generate_customers count s).1.map customerCSVRow := by
      simp
    rw [hdrop, List.map_map]
    have hcast : (generate_customers count s).1.map (cast_row_customers ∘ customerCSVRow)
        = (generate_customers count s).1.map customerToRow :=
      List.map_congr_left (fun c _ => cast_row_customerCSVRow c)
    rw [hcast, foldl_insertOrReplace_no_conflict _ [] (by simp) hidn hemn]
    simp
  refine ⟨hmain, ?_⟩
  rw [hmain, List.length_map, hlen]

theorem C3_roundtrip_customers_witness :
    ((generate_customers 2 [0, 0, 0, 1, 1, 1]).1.map Customer.email).Nodup ∧
    (ingest_customers (write_csv_customers (generate_customers 2 [0, 0, 0, 1, 1, 1]).1)
        = (generate_customers 2 [0, 0, 0, 1, 1, 1]).1.map customerToRow ∧
      (ingest_customers
          (write_csv_customers (generate_customers 2 [0, 0, 0, 1, 1, 1]).1)).length = 2) :=
  ⟨by decide, C3_roundtrip_customers 2 [0, 0, 0, 1, 1, 1] (by decide)⟩

/-- C3 counterexample: with the all-zero stream both generated customers are
"Alex Smith" with the email alex.smith@example.com; ingesting the written
2-row file leaves one table row (the second `INSERT OR REPLACE` deletes the
first at the UNIQUE email conflict), not 2 rows. -/
theorem C3_roundtrip_cex :
    (generate_customers 2 [0, 0, 0, 0, 0, 0]).1.length = 2 ∧
    (ingest_customers
        (write_csv_customers (generate_customers 2 [0, 0, 0, 0, 0, 0]).1)).length = 1 := by
  decide

/-! ### The top-products query (`query_data.py`) -/

/-- One result row of `top_products_by_revenue`: product name, category,
units sold, and `ROUND(SUM(oi.quantity * p.price), 2)` as integer cents
(every summand is a whole number of cents, so the rounded REAL sum is
exactly this cents value). -/
structure RevenueRow where
  name : String
  category : String
  units : Nat
  revenueCents : Nat
deriving DecidableEq

/-- The aggregate row of one product over the order items that join to it. -/
def revenueRowOf (its : List OrderItem) (p : Product) : RevenueRow :=
  { name := p.name
    category := p.category
    units := ((its.filter (fun it => it.product_id == p.product_id)).map
        OrderItem.quantity).sum
    revenueCents := ((its.filter (fun it => it.product_id == p.product_id)).map
        (fun it => it.quantity * p.priceCents)).sum }

/-- Descending-revenue comparison used by `ORDER BY revenue DESC`. -/
def revenueGE (a b : RevenueRow) : Prop := b.revenueCents ≤ a.revenueCents

instance : DecidableRel revenueGE := fun a b => Nat.decLe _ _

instance : IsTotal RevenueRow revenueGE := ⟨fun a b => le_total _ _⟩

instance : IsTrans RevenueRow revenueGE := ⟨fun _ _ _ h1 h2 => le_trans h2 h1⟩

/-- `top_products_by_revenue`: order items inner-joined with products and
grouped by `p.product_id` (an unsold product contributes no row), ordered
by revenue descending, truncated by `LIMIT 10`.  With distinct product ids
(the primary key) the groups are exactly the sold products. -/
def top_products_by_revenue (ps : List Product) (its : List OrderItem) :
    List RevenueRow :=
  (((ps.filter (fun p => its.any (fun it => it.product_id == p.product_id))).map
      (revenueRowOf its)).insertionSort revenueGE).take 10

/-- C10 (amended): on a store whose products table has exactly 3 rows
(with the distinct ids the primary key guarantees), each of which occurs in
at least one order item, the top-10-by-revenue query returns exactly 3
rows, ordered by revenue descending.  (As originally stated the claim
fails: the inner join drops products with no order items, so a 3-product
store can return fewer rows — see the counterexample.) -/
theorem C10_top10_on_three_products (ps : List Product) (its : List OrderItem)
    (h3 : ps.length = 3)
    (_hpk : (ps.map Product.product_id).Nodup)
    (hsold : ∀ p ∈ ps, ∃ it ∈ its, it.product_id = p.product_id) :
    (top_products_by_revenue ps its).length = 3 ∧
    (top_products_by_revenue ps its).Sorted revenueGE := by
  have hfilter : ps.filter (fun p => its.any (fun it => it.product_id == p.product_id))
      = ps := by
    apply List.filter_eq_self.2
    intro p hp
    rcases hsold p hp with ⟨it, hit, hpid⟩
    exact List.any_eq_true.2 ⟨it, hit, by simp [hpid]⟩
  have hlen : ((ps.filter (fun p => its.any
      (fun it => it.product_id == p.product_id))).map (revenueRowOf its)).length = 3 := by
    rw [hfilter, List.length_map, h3]
  have hslen : (((ps.filter (fun p => its.any
      (fun it => it.product_id == p.product_id))).map
        (revenueRowOf its)).insertionSort revenueGE).length = 3 := by
    rw [(List.perm_insertionSort revenueGE _).length_eq, hlen]
  have htake : (top_products_by_revenue ps its)
      = ((ps.filter (fun p => its.any (fun it => it.product_id == p.product_id))).map
          (revenueRowOf its)).insertionSort revenueGE := by
    rw [top_products_by_revenue]
    exact List.take_of_length_le (by omega)
  constructor
  · rw [htake, hslen]
  · rw [htake]
    exact List.sorted_insertionSort revenueGE _

theorem C10_top10_on_three_products_witness :
    ([(⟨1, "Yoga Mat", "Fitness", 3200⟩ : Product), ⟨2, "Foam Roller", "Fitness", 2875⟩,
        ⟨3, "Modern Cooking", "Books", 3000⟩].length = 3) ∧
    (([(⟨1, "Yoga Mat", "Fitness", 3200⟩ : Product), ⟨2, "Foam Roller", "Fitness", 2875⟩,
        ⟨3, "Modern Cooking", "Books", 3000⟩].map Product.product_id).Nodup) ∧
    (∀ p ∈ [(⟨1, "Yoga Mat", "Fitness", 3200⟩ : Product),
        ⟨2, "Foam Roller", "Fitness", 2875⟩, ⟨3, "Modern Cooking", "Books", 3000⟩],
      ∃ it ∈ [(⟨1, 1, 1, 2⟩ : OrderItem), ⟨2, 1, 2, 1⟩, ⟨3, 2, 3, 3⟩],
        it.product_id = p.product_id) ∧
    ((top_products_by_revenue
        [⟨1, "Yoga Mat", "Fitness", 3200⟩, ⟨2, "Foam Roller", "Fitness", 2875⟩,
          ⟨3, "Modern Cooking", "Books", 3000⟩]
        [⟨1, 1, 1, 2⟩, ⟨2, 1, 2, 1⟩, ⟨3, 2, 3, 3⟩]).length = 3 ∧
      (top_products_by_revenue
        [⟨1, "Yoga Mat", "Fitness", 3200⟩, ⟨2, "Foam Roller", "Fitness", 2875⟩,
          ⟨3, "Modern Cooking", "Books", 3000⟩]
        [⟨1, 1, 1, 2⟩, ⟨2, 1, 2, 1⟩, ⟨3, 2, 3, 3⟩]).Sorted revenueGE) :=
  ⟨by decide, by decide, by decide,
    C10_top10_on_three_products _ _ (by decide) (by decide) (by decide)⟩

/-- C10 counterexample: a store with exactly 3 products and no order items
returns 0 rows from the top-10 query, not 3: the inner join emits no row
for an unsold product. -/
theorem C10_top10_cex :
    (top_products_by_revenue
        [⟨1, "Yoga Mat", "Fitness", 3200⟩, ⟨2, "Foam Roller", "Fitness", 2875⟩,
          ⟨3, "Modern Cooking", "Books", 3000⟩] []).length ≠ 3 := by
  decide
